import Mathlib

/-!
Verification development for the llm-caller template execution engine.

The Go source is shallowly embedded: parsed JSON documents become the
inductive `Json` tree, Go strings become `String` (with the character-list
core used for the algorithmic parts), Go maps that are iterated become
association lists, and fallible operations return `Option` or explicit
result inductives.  Go runtime panics (negative slice indices, inverted
slice bounds) are modelled by an explicit `panic` result constructor.
-/

namespace LlmCaller

/-- Brace characters, used by the placeholder token syntax. -/
def lbrace : Char := Char.ofNat 123

/-- Closing brace character. -/
def rbrace : Char := Char.ofNat 125

/-- Left square bracket character, used by path segments such as choices[0]. -/
def lbrack : Char := Char.ofNat 91

/-- Right square bracket character. -/
def rbrack : Char := Char.ofNat 93

/-- Dot character separating path segments. -/
def dotChar : Char := Char.ofNat 46

/-- Colon character separating the parts of a --var specification. -/
def colonChar : Char := Char.ofNat 58

/-- A parsed JSON value, as produced by Go encoding/json unmarshalling into
an untyped interface tree.  `null` also stands for the nil interface value.
Numbers are modelled as integers (Go uses float64; the claims under proof
only depend on numbers being non-string scalars with a decimal rendering). -/
inductive Json where
  | null : Json
  | bool : Bool → Json
  | num : Int → Json
  | str : String → Json
  | arr : List Json → Json
  | obj : List (String × Json) → Json

/-- A top-level JSON object, the target type of json.Unmarshal into
map[string]interface\x7b\x7d in the Go source. -/
def JObj : Type := List (String × Json)

/-- Whether a JSON value is a string. -/
def Json.isStr : Json → Bool
  | .str _ => true
  | _ => false

/-- Whether a value is the nil interface (the Go `current == nil` test). -/
def Json.isNull : Json → Bool
  | .null => true
  | _ => false

/-- Whether a JSON value is one of the non-string scalars (number, boolean
or null). -/
def Json.isScalarNonString : Json → Bool
  | .num _ => true
  | .bool _ => true
  | .null => true
  | _ => false

/-! ## Go string primitives used by the engine -/

/-- Whether `pat` matches at the head of `s` (Go strings.HasPrefix on the
remaining input, used by the ReplaceAll scan). -/
def headMatches : List Char → List Char → Bool
  | [], _ => true
  | _ :: _, [] => false
  | p :: ps, c :: cs => p = c && headMatches ps cs

/-- Whether `pat` occurs contiguously somewhere in `s` (Go strings.Contains). -/
def containsSeq (pat : List Char) : List Char → Bool
  | [] => headMatches pat []
  | c :: cs => headMatches pat (c :: cs) || containsSeq pat cs

/-- Go strings.ReplaceAll: scan left to right, replacing each
non-overlapping occurrence of `old` by `new`.  The Go engine only ever
calls this with the non-empty pattern written as a brace-wrapped
placeholder token; the empty-pattern behaviour of Go (inserting `new`
between characters) is therefore not exercised and the scan below leaves
the string unchanged in that case. -/
def replaceAll (old new : List Char) : List Char → List Char
  | [] => []
  | c :: cs =>
    if old ≠ [] ∧ headMatches old (c :: cs) = true then
      new ++ replaceAll old new (List.drop old.length (c :: cs))
    else
      c :: replaceAll old new cs
termination_by s => s.length
decreasing_by
  · rename_i h
    simp only [List.length_drop, List.length_cons]
    have hl : old.length ≥ 1 := by
      cases old with
      | nil => exact absurd rfl h.1
      | cons a as => simp
    omega
  · simp

/-- The literal placeholder token for a variable name:
the name wrapped in double braces. -/
def tok (name : String) : List Char :=
  lbrace :: lbrace :: (name.data ++ [rbrace, rbrace])

/-! ## Variable Substitution Engine (templates.ReplaceVariables) -/

/-- Source function replaceVariablesInString: fold over the bindings,
replacing all occurrences of each binding token by its value.  Go map
iteration order is unspecified; the bindings are modelled as an
association list and folded in list order. -/
def replaceVariablesInString (content : String) (replacements : List (String × String)) : String :=
  ⟨replacements.foldl (fun acc kv => replaceAll (tok kv.1) kv.2.data acc) content.data⟩

mutual

/-- Source function replaceVariablesInInterface: recursively replace
variables inside an untyped JSON tree, rewriting string leaves and
recursing through maps and arrays; other scalars are returned as-is. -/
def replaceVariablesInValue (replacements : List (String × String)) : Json → Json
  | .str s => .str (replaceVariablesInString s replacements)
  | .obj kvs => .obj (replaceVariablesInFields replacements kvs)
  | .arr xs => .arr (replaceVariablesInList replacements xs)
  | v => v
termination_by j => sizeOf j

/-- Field-list part of replaceVariablesInInterface's map case. -/
def replaceVariablesInFields (replacements : List (String × String)) :
    List (String × Json) → List (String × Json)
  | [] => []
  | (k, v) :: rest =>
    (k, replaceVariablesInValue replacements v) :: replaceVariablesInFields replacements rest
termination_by kvs => sizeOf kvs

/-- Element-list part of replaceVariablesInInterface's slice case. -/
def replaceVariablesInList (replacements : List (String × String)) : List Json → List Json
  | [] => []
  | x :: xs => replaceVariablesInValue replacements x :: replaceVariablesInList replacements xs
termination_by xs => sizeOf xs

end

/-! ## Template model (templates package) -/

/-- ResponseConfig of the template model.  The struct version carrying
`auto_detect` and `response_field_name` is the one the llm client compiles
against (its fields are read at part_000 lines 73-74); the copy of
templates.go present in the sources carries only `path`.  The two extra
fields are taken from the spec data model, which names exactly these. -/
structure ResponseConfig where
  path : String
  autoDetect : Bool
  responseFieldName : String
deriving Repr, DecidableEq

/-- RequestConfig: url, method, headers and the JSON body.  `none` for the
body models a nil Go map (the field absent from the template JSON). -/
structure RequestConfig where
  url : String
  method : String
  headers : List (String × String)
  body : Option (List (String × Json))

/-- Template: the unit of configuration for one API call. -/
structure Template where
  provider : String
  title : String
  request : RequestConfig
  response : ResponseConfig
  description : String
  apiDocument : String
  instructions : List String

/-- Source method Template.Validate: the required fields are checked in
the fixed order provider, request.url, request.body, and the first
missing one is reported. -/
def Template.validate (t : Template) : Option String :=
  if t.provider = "" then some "provider is required in template"
  else if t.request.url = "" then some "request.url is required in template"
  else
    match t.request.body with
    | none => some "request.body is required in template"
    | some _ => none

/-- Source method Template.ReplaceVariables: rewrite header values, the
URL and the body.  The body is passed through replaceVariablesInInterface
and the result asserted back to a map; a nil body map matches the map case
of the type switch and comes back as an empty non-nil map, so the result
body is always present. -/
def Template.replaceVariables (t : Template) (replacements : List (String × String)) : Template :=
  { t with request :=
    { t.request with
        headers := t.request.headers.map (fun kv => (kv.1, replaceVariablesInString kv.2 replacements)),
        url := replaceVariablesInString t.request.url replacements,
        body := some (replaceVariablesInFields replacements (t.request.body.getD [])) } }

/-! ## Path navigation (extractResponseContentByPath) -/

/-- Index of the first occurrence of a character (Go strings.Index; the
source guards every use with strings.Contains, so only the some case is
ever consumed). -/
def firstIdxOf (c : Char) : List Char → Option Nat
  | [] => none
  | x :: xs => if x = c then some 0 else (firstIdxOf c xs).map (· + 1)

/-- Go slice expression s[lo:hi]: defined when 0 ≤ lo ≤ hi ≤ len s,
otherwise a runtime panic, modelled as `none`. -/
def goSlice (s : List Char) (lo hi : Nat) : Option (List Char) :=
  if lo ≤ hi ∧ hi ≤ s.length then some ((s.take hi).drop lo) else none

/-- Decimal digit test. -/
def isDigitChar (c : Char) : Bool :=
  decide (48 ≤ c.toNat ∧ c.toNat ≤ 57)

/-- Parse a non-empty all-digit run as a natural number. -/
def parseDigits (s : List Char) : Option Nat :=
  if s ≠ [] ∧ s.all isDigitChar then
    some (s.foldl (fun acc c => 10 * acc + (c.toNat - 48)) 0)
  else none

/-- Go strconv.Atoi: optional sign followed by digits.  Overflow of the
platform int is not modelled; the engine only consumes small indices. -/
def goAtoi (s : List Char) : Option Int :=
  match s with
  | c :: rest =>
    if c = Char.ofNat 45 then (parseDigits rest).map (fun n => -(n : Int))
    else if c = Char.ofNat 43 then (parseDigits rest).map (fun n => (n : Int))
    else (parseDigits s).map (fun n => (n : Int))
  | [] => none

/-- Go strings.Split on a single-character separator (n = -1 variant:
every separator splits). -/
def splitOnChar (c : Char) : List Char → List (List Char)
  | [] => [[]]
  | x :: xs =>
    if x = c then [] :: splitOnChar c xs
    else
      match splitOnChar c xs with
      | [] => [[x]]
      | p :: ps => (x :: p) :: ps

/-- Join character-list fragments with a separator (Go strings.Join,
used for the pathSoFar diagnostic). -/
def joinWith (sep : List Char) : List (List Char) → List Char
  | [] => []
  | [f] => f
  | f :: fs => f ++ sep ++ joinWith sep fs

/-- Source function navigateToField: map lookup on JSON objects; an
absent key yields the nil interface, modelled as `Json.null`.  The
reflection fallback for struct fields is dead for parsed JSON data (the
tree never holds Go structs), so every non-map value yields nil, and the
map[interface]interface case cannot arise from encoding/json. -/
def navigateToField (data : Json) (field : String) : Json :=
  match data with
  | .obj kvs => (kvs.lookup field).getD .null
  | _ => .null

mutual

/-- Compact JSON rendering of a value, standing in for the
json.MarshalIndent call of formatResponseStructure.  Indentation, string
escaping and the key sorting encoding/json applies to maps are
simplified (fields render in stored order); no claim under proof depends
on the dump text. -/
def jsonRender : Json → String
  | .null => "null"
  | .bool b => if b then "true" else "false"
  | .num n => toString n
  | .str s => "\"" ++ s ++ "\""
  | .arr xs => "[" ++ jsonRenderList "," xs ++ "]"
  | .obj kvs => "\x7b" ++ jsonRenderFields kvs ++ "\x7d"
termination_by j => sizeOf j

/-- Comma-joined renderings of array elements. -/
def jsonRenderList (sep : String) : List Json → String
  | [] => ""
  | [x] => jsonRender x
  | x :: xs => jsonRender x ++ sep ++ jsonRenderList sep xs
termination_by xs => sizeOf xs

/-- Comma-joined renderings of object fields. -/
def jsonRenderFields : List (String × Json) → String
  | [] => ""
  | [(k, v)] => "\"" ++ k ++ "\":" ++ jsonRender v
  | (k, v) :: rest => "\"" ++ k ++ "\":" ++ jsonRender v ++ "," ++ jsonRenderFields rest
termination_by kvs => sizeOf kvs

end

/-- Source function formatResponseStructure: pretty-print the top-level
response object and truncate it past 1000 characters. -/
def formatResponseStructure (response : JObj) : String :=
  let pretty := jsonRender (.obj response)
  if pretty.data.length > 1000 then ⟨pretty.data.take 1000⟩ ++ "... (truncated)"
  else pretty

/-- Go fmt type rendering (the %T verb) for the interface values a parsed
JSON tree can hold. -/
def goTypeName : Json → String
  | .null => "<nil>"
  | .bool _ => "bool"
  | .num _ => "float64"
  | .str _ => "string"
  | .arr _ => "[]interface \x7b\x7d"
  | .obj _ => "map[string]interface \x7b\x7d"

mutual

/-- Go fmt default rendering (the %v verb) of a composite value. -/
def goFmtValue : Json → String
  | .null => "<nil>"
  | .bool b => if b then "true" else "false"
  | .num n => toString n
  | .str s => s
  | .arr xs => "[" ++ goFmtList xs ++ "]"
  | .obj kvs => "map[" ++ goFmtFields kvs ++ "]"
termination_by j => sizeOf j

/-- Space-joined element renderings, as fmt prints a slice. -/
def goFmtList : List Json → String
  | [] => ""
  | [x] => goFmtValue x
  | x :: xs => goFmtValue x ++ " " ++ goFmtList xs
termination_by xs => sizeOf xs

/-- Space-joined key:value renderings, as fmt prints a map (the key
sorting fmt applies is simplified to stored order). -/
def goFmtFields : List (String × Json) → String
  | [] => ""
  | [(k, v)] => k ++ ":" ++ goFmtValue v
  | (k, v) :: rest => k ++ ":" ++ goFmtValue v ++ " " ++ goFmtFields rest
termination_by kvs => sizeOf kvs

end

/-- Go fmt.Sprintf with %v applied to the final navigated node.  Scalars
are rendered directly (and reduce definitionally); composites defer to
the recursive renderer. -/
def goSprintV : Json → String
  | .null => "<nil>"
  | .bool b => if b then "true" else "false"
  | .num n => toString n
  | .str s => s
  | .arr xs => goFmtValue (.arr xs)
  | .obj kvs => goFmtValue (.obj kvs)

/-- The errors path navigation can return.  Each constructor mirrors one
fmt.Errorf site of extractResponseContentByPath, carrying the data that
the source interpolates into the message (field, path so far, index,
array length, the %T type rendering, and the capped structure dump). -/
inductive PathError where
  | emptyPath : PathError
  | parseError : PathError
  | invalidIndex (indexStr : String) : PathError
  | fieldNotFound (field : String) (pathSoFar : String) (dump : String) : PathError
  | outOfBounds (index : Int) (pathSoFar : String) (length : Nat) (dump : String) : PathError
  | notAnArray (gotType : String) (field : String) (pathSoFar : String) (dump : String) : PathError

/-- Outcome of running the navigation loop: the node reached, a returned
error, or a Go runtime panic. -/
inductive NavOutcome where
  | ok (value : Json)
  | err (e : PathError)
  | panic

/-- The navigation loop of extractResponseContentByPath: one iteration
per dot-separated segment.  `done` holds the already-consumed segments so
that pathSoFar can be reported in errors.  Segments containing both
brackets are split into a field name and an index: the index substring is
a Go slice expression (panics when the first right bracket precedes the
first left bracket), the index is not checked for negativity, and
arr[index] panics for a negative index. -/
def navParts (response : JObj) : Json → List (List Char) → List (List Char) → NavOutcome
  | current, _, [] => .ok current
  | current, done, part :: rest =>
    let pathSoFar : String := ⟨joinWith [dotChar] (done ++ [part])⟩
    match firstIdxOf lbrack part, firstIdxOf rbrack part with
    | some i1, some i2 =>
      let arrayName : List Char := part.take i1
      match goSlice part (i1 + 1) i2 with
      | none => .panic
      | some indexStr =>
        match goAtoi indexStr with
        | none => .err (.invalidIndex ⟨indexStr⟩)
        | some index =>
          let navigated : NavOutcome :=
            if arrayName = [] then .ok current
            else
              let nav := navigateToField current ⟨arrayName⟩
              if nav.isNull then
                .err (.fieldNotFound ⟨arrayName⟩ pathSoFar (formatResponseStructure response))
              else .ok nav
          match navigated with
          | .err e => .err e
          | .panic => .panic
          | .ok cur =>
            match cur with
            | .arr arr =>
              if (arr.length : Int) ≤ index then
                .err (.outOfBounds index pathSoFar arr.length (formatResponseStructure response))
              else if index < 0 then .panic
              else navParts response (arr.getD index.toNat .null) (done ++ [part]) rest
            | other =>
              .err (.notAnArray (goTypeName other) ⟨arrayName⟩ pathSoFar
                (formatResponseStructure response))
    | _, _ =>
      let nav := navigateToField current ⟨part⟩
      if nav.isNull then
        .err (.fieldNotFound ⟨part⟩ pathSoFar (formatResponseStructure response))
      else navParts response nav (done ++ [part]) rest

/-- Result of the extraction step: the extracted string, a returned
error, or a Go runtime panic. -/
inductive ExtractResult where
  | ok (s : String)
  | err (e : PathError)
  | panic

/-- Final-node conversion at the end of extractResponseContentByPath:
a string is returned verbatim, anything else is rendered with fmt %v. -/
def finalToString (j : Json) : String :=
  match j with
  | .str s => s
  | other => goSprintV other

/-- Source function extractResponseContentByPath.  The body bytes are
modelled by their parse result: `some response` when json.Unmarshal into
a string-keyed map succeeds, `none` when it fails (invalid JSON or a
non-object document). -/
def extractResponseContentByPath (parsed : Option JObj) (responsePath : String) : ExtractResult :=
  if responsePath = "" then .err .emptyPath
  else
    match parsed with
    | none => .err .parseError
    | some response =>
      match navParts response (.obj response) [] (splitOnChar dotChar responsePath.data) with
      | .ok final => .ok (finalToString final)
      | .err e => .err e
      | .panic => .panic

/-! ## Auto-detection (detectResponseFormat, autoDetectResponseContent) -/

/-- Block 1 of detectResponseFormat: a top-level string field named
response (newer Ollama generate format). -/
def tryResponseField (response : JObj) : Option String :=
  match response.lookup "response" with
  | some (.str s) => some s
  | _ => none

/-- Block 2 of detectResponseFormat: the OpenAI choices block.  When
choices is a non-empty array whose head is an object, first probe
message.content, then text; when the message probe misses, control falls
through to the text probe inside the same block. -/
def tryChoices (response : JObj) : Option String :=
  match response.lookup "choices" with
  | some (.arr (choice :: _)) =>
    match choice with
    | .obj choiceMap =>
      match choiceMap.lookup "message" with
      | some (.obj message) =>
        (match message.lookup "content" with
         | some (.str content) => some content
         | _ =>
           match choiceMap.lookup "text" with
           | some (.str text) => some text
           | _ => none)
      | _ =>
        match choiceMap.lookup "text" with
        | some (.str text) => some text
        | _ => none
    | _ => none
  | _ => none

/-- Blocks 3 and 6 of detectResponseFormat: a top-level string field
named content (the check appears twice in the source). -/
def tryContentString (response : JObj) : Option String :=
  match response.lookup "content" with
  | some (.str s) => some s
  | _ => none

/-- Block 4 of detectResponseFormat: a top-level string field named
completion. -/
def tryCompletion (response : JObj) : Option String :=
  match response.lookup "completion" with
  | some (.str s) => some s
  | _ => none

/-- Block 5 of detectResponseFormat: Cohere generations[0].text. -/
def tryGenerations (response : JObj) : Option String :=
  match response.lookup "generations" with
  | some (.arr (generation :: _)) =>
    match generation with
    | .obj genMap =>
      match genMap.lookup "text" with
      | some (.str text) => some text
      | _ => none
    | _ => none
  | _ => none

/-- Block 7 of detectResponseFormat: Claude content[0].text. -/
def tryContentBlocks (response : JObj) : Option String :=
  match response.lookup "content" with
  | some (.arr (block :: _)) =>
    match block with
    | .obj blockMap =>
      match blockMap.lookup "text" with
      | some (.str text) => some text
      | _ => none
    | _ => none
  | _ => none

/-- Source function detectResponseFormat: the sequential early-return
blocks of the Go function, in source order, including the duplicated
content-string check before the Claude block. -/
def detectResponseFormat (response : JObj) : Option String :=
  match tryResponseField response with
  | some s => some s
  | none =>
  match tryChoices response with
  | some s => some s
  | none =>
  match tryContentString response with
  | some s => some s
  | none =>
  match tryCompletion response with
  | some s => some s
  | none =>
  match tryGenerations response with
  | some s => some s
  | none =>
  match tryContentString response with
  | some s => some s
  | none => tryContentBlocks response

/-- The errors auto-detection can produce (it cannot panic). -/
inductive AutoDetectError where
  | parseError : AutoDetectError
  | noFormat : AutoDetectError
deriving Repr, DecidableEq

/-- Source function autoDetectResponseContent: parse the body, consult
the preferred response-field hint (only when it names a top-level string
field), then run the general format detection. -/
def autoDetectResponseContent (parsed : Option JObj) (preferredResponseField : String) :
    Except AutoDetectError String :=
  match parsed with
  | none => .error .parseError
  | some response =>
    let hinted : Option String :=
      if preferredResponseField ≠ "" then
        match response.lookup preferredResponseField with
        | some (.str s) => some s
        | _ => none
      else none
    match hinted with
    | some s => .ok s
    | none =>
      match detectResponseFormat response with
      | some content => .ok content
      | none => .error .noFormat

/-! ## The Call response handling (GenericClient.Call, lines 60-93) -/

/-- The HTTP response body: the raw bytes as received, paired with the
result of json.Unmarshal on them (shared by both extraction strategies,
since unmarshalling the same bytes is deterministic). -/
structure HTTPBody where
  raw : String
  parsed : Option JObj

/-- Extraction dispatch inside Call: auto-detection first when enabled,
falling back to path navigation on any auto-detection error; path
navigation directly otherwise. -/
def extractContent (parsed : Option JObj) (rc : ResponseConfig) : ExtractResult :=
  if rc.autoDetect then
    match autoDetectResponseContent parsed rc.responseFieldName with
    | .ok s => .ok s
    | .error _ => extractResponseContentByPath parsed rc.path
  else
    extractResponseContentByPath parsed rc.path

/-- Result of Call once the HTTP response is in hand. -/
inductive CallResult where
  | ok (s : String)
  | apiError (status : Nat) (rawBody : String)
  | extractError (e : PathError)
  | panic

/-- Whether a call result is a success. -/
def CallResult.isOk : CallResult → Bool
  | .ok _ => true
  | _ => false

/-- Lift an extraction result into a call result. -/
def liftExtract : ExtractResult → CallResult
  | .ok s => .ok s
  | .err e => .extractError e
  | .panic => .panic

/-- The tail of GenericClient.Call after the body has been read: any
status other than exactly 200 is a hard failure carrying the status and
the raw unparsed body; extraction runs only on status 200. -/
def callHandleResponse (status : Nat) (body : HTTPBody) (rc : ResponseConfig) : CallResult :=
  if status ≠ 200 then .apiError status body.raw
  else liftExtract (extractContent body.parsed rc)

/-! ## Variable specification parsing (cmd.parseVarFlags, lines 322-341) -/

/-- Split off everything before the first colon. -/
def splitFirstColon : List Char → Option (List Char × List Char)
  | [] => none
  | c :: cs =>
    if c = colonChar then some ([], cs)
    else (splitFirstColon cs).map (fun p => (c :: p.1, p.2))

/-- Go strings.SplitN on the colon separator: at most n parts, the last
part keeping any remaining separators. -/
def goSplitNColon : Nat → List Char → List (List Char)
  | 0, _ => []
  | 1, s => [s]
  | n + 2, s =>
    match splitFirstColon s with
    | none => [s]
    | some (pre, post) => pre :: goSplitNColon (n + 1) post

/-- The SplitN call of parseVarFlags, lifted to strings. -/
def splitVarSpec (s : String) : List String :=
  (goSplitNColon 3 s.data).map (fun part => ⟨part⟩)

/-- The pure parsing portion of parseVarFlags for one --var flag: split
into at most three colon-separated parts, reject fewer than two parts and
an empty name, default the kind to text for two parts.  The I/O
resolution of the parsed (name, kind, value) triple (stdin and file
reads, the unsupported-kind rejection) is not modelled. -/
def parseVarSpec (s : String) : Except String (String × String × String) :=
  let parts := splitVarSpec s
  if parts.length < 2 then
    .error ("invalid var format, expected name:value or name:type:value: " ++ s)
  else
    let name := parts.headD ""
    if name = "" then .error ("variable name cannot be empty in: " ++ s)
    else if parts.length = 2 then .ok (name, "text", parts.getD 1 "")
    else .ok (name, parts.getD 1 "", parts.getD 2 "")

/-! ## Spec-side definitions used for refinement statements

These definitions follow the specification's words (not the source) and
exist only to be compared against the source-derived definitions. -/

mutual

/-- Spec-side substitution: apply a string rewriting function to every
string leaf of the tree, recursing through maps and arrays and leaving
non-string scalars untouched (spec 4.3). -/
def mapStringLeaves (f : String → String) : Json → Json
  | .str s => .str (f s)
  | .obj kvs => .obj (mapStringLeavesFields f kvs)
  | .arr xs => .arr (mapStringLeavesList f xs)
  | v => v
termination_by j => sizeOf j

/-- Spec-side substitution over the fields of a map node. -/
def mapStringLeavesFields (f : String → String) :
    List (String × Json) → List (String × Json)
  | [] => []
  | (k, v) :: rest => (k, mapStringLeaves f v) :: mapStringLeavesFields f rest
termination_by kvs => sizeOf kvs

/-- Spec-side substitution over the elements of an array node. -/
def mapStringLeavesList (f : String → String) : List Json → List Json
  | [] => []
  | x :: xs => mapStringLeaves f x :: mapStringLeavesList f xs
termination_by xs => sizeOf xs

end

/-! ## Spec-side probe list for auto-detection (spec 4.5 step 2) -/

/-- Spec probe: top-level string field response. -/
def specProbeResponse (r : JObj) : Option String :=
  match r.lookup "response" with
  | some (.str s) => some s
  | _ => none

/-- Spec probe: choices[0].message.content when choices is a non-empty
array of objects. -/
def specProbeChoicesMessage (r : JObj) : Option String :=
  match r.lookup "choices" with
  | some (.arr (c :: _)) =>
    match c with
    | .obj cm =>
      match cm.lookup "message" with
      | some (.obj mm) =>
        match mm.lookup "content" with
        | some (.str s) => some s
        | _ => none
      | _ => none
    | _ => none
  | _ => none

/-- Spec probe: choices[0].text when choices is a non-empty array of
objects. -/
def specProbeChoicesText (r : JObj) : Option String :=
  match r.lookup "choices" with
  | some (.arr (c :: _)) =>
    match c with
    | .obj cm =>
      match cm.lookup "text" with
      | some (.str s) => some s
      | _ => none
    | _ => none
  | _ => none

/-- Spec probe: top-level string field content. -/
def specProbeContent (r : JObj) : Option String :=
  match r.lookup "content" with
  | some (.str s) => some s
  | _ => none

/-- Spec probe: top-level string field completion. -/
def specProbeCompletion (r : JObj) : Option String :=
  match r.lookup "completion" with
  | some (.str s) => some s
  | _ => none

/-- Spec probe: generations[0].text when generations is a non-empty array
of objects. -/
def specProbeGenerations (r : JObj) : Option String :=
  match r.lookup "generations" with
  | some (.arr (g :: _)) =>
    match g with
    | .obj gm =>
      match gm.lookup "text" with
      | some (.str s) => some s
      | _ => none
    | _ => none
  | _ => none

/-- Spec probe: content[0].text when content is a non-empty array of
objects. -/
def specProbeContentBlocks (r : JObj) : Option String :=
  match r.lookup "content" with
  | some (.arr (b :: _)) =>
    match b with
    | .obj bm =>
      match bm.lookup "text" with
      | some (.str s) => some s
      | _ => none
    | _ => none
  | _ => none

/-- Run an ordered list of probes and return the first match. -/
def firstMatch (r : JObj) : List (JObj → Option String) → Option String
  | [] => none
  | p :: ps =>
    match p r with
    | some s => some s
    | none => firstMatch r ps

/-- The spec's fixed probe order. -/
def specProbeOrder : List (JObj → Option String) :=
  [specProbeResponse, specProbeChoicesMessage, specProbeChoicesText,
   specProbeContent, specProbeCompletion, specProbeGenerations, specProbeContentBlocks]


/-! ## Lemmas about the string replacement scan -/

theorem headMatches_append_self (p rest : List Char) :
    headMatches p (p ++ rest) = true := by
  induction p with
  | nil => rfl
  | cons c cs ih => simp [headMatches, ih]

theorem headMatches_head_ne {c p : Char} (ps cs : List Char) (h : p ≠ c) :
    headMatches (p :: ps) (c :: cs) = false := by
  simp [headMatches, h]

theorem replaceAll_nil (old new : List Char) : replaceAll old new [] = [] := by
  simp [replaceAll]

theorem replaceAll_cons_match (old new : List Char) (c : Char) (cs : List Char)
    (h1 : old ≠ []) (h2 : headMatches old (c :: cs) = true) :
    replaceAll old new (c :: cs) =
      new ++ replaceAll old new (List.drop old.length (c :: cs)) := by
  rw [replaceAll]
  simp [h1, h2]

theorem replaceAll_cons_nomatch (old new : List Char) (c : Char) (cs : List Char)
    (h2 : headMatches old (c :: cs) = false) :
    replaceAll old new (c :: cs) = c :: replaceAll old new cs := by
  rw [replaceAll]
  simp [h2]

theorem replaceAll_not_contains (old new : List Char) :
    ∀ s : List Char, containsSeq old s = false → replaceAll old new s = s := by
  intro s
  induction s with
  | nil => intro _; exact replaceAll_nil old new
  | cons c cs ih =>
    intro h
    rw [containsSeq, Bool.or_eq_false_iff] at h
    rw [replaceAll_cons_nomatch old new c cs h.1, ih h.2]

theorem tok_ne_nil (k : String) : tok k ≠ [] := by
  simp [tok]

theorem tok_def (k : String) :
    tok k = lbrace :: (lbrace :: k.data ++ [rbrace, rbrace]) := rfl

theorem headMatches_tok_of_ne {c : Char} (k : String) (cs : List Char) (h : c ≠ lbrace) :
    headMatches (tok k) (c :: cs) = false := by
  rw [tok_def]
  have hd : (decide (lbrace = c)) = false := decide_eq_false (fun he => h he.symm)
  simp [headMatches, hd]

theorem replaceAll_no_lbrace (k : String) (v : List Char) :
    ∀ s : List Char, lbrace ∉ s → replaceAll (tok k) v s = s := by
  intro s
  induction s with
  | nil => intro _; exact replaceAll_nil _ _
  | cons c cs ih =>
    intro h
    have hc : c ≠ lbrace := fun hc => h (hc ▸ List.mem_cons_self c cs)
    have hm : headMatches (tok k) (c :: cs) = false := headMatches_tok_of_ne k cs hc
    rw [replaceAll_cons_nomatch _ _ _ _ hm, ih (fun hm' => h (List.mem_cons_of_mem c hm'))]

theorem replaceAll_tok_boundary (k : String) (v : List Char) :
    ∀ (f rest : List Char), lbrace ∉ f →
      replaceAll (tok k) v (f ++ (tok k ++ rest)) = f ++ (v ++ replaceAll (tok k) v rest) := by
  intro f
  induction f with
  | nil =>
    intro rest _
    simp only [List.nil_append]
    have hcons : tok k ++ rest = lbrace :: (lbrace :: k.data ++ [rbrace, rbrace] ++ rest) := by
      rw [tok_def]; simp
    rw [hcons, replaceAll_cons_match _ _ _ _ (by simp [tok]) (by
      rw [← hcons]; exact headMatches_append_self _ _)]
    rw [← hcons, List.drop_left]
  | cons c f' ih =>
    intro rest h
    have hc : c ≠ lbrace := fun hc => h (hc ▸ List.mem_cons_self c f')
    have hm : headMatches (tok k) (c :: (f' ++ (tok k ++ rest))) = false :=
      headMatches_tok_of_ne k _ hc
    simp only [List.cons_append]
    rw [replaceAll_cons_nomatch _ _ _ _ hm, ih rest (fun hm' => h (List.mem_cons_of_mem c hm'))]

theorem joinWith_cons (sep f g : List Char) (fs : List (List Char)) :
    joinWith sep (f :: g :: fs) = f ++ sep ++ joinWith sep (g :: fs) := rfl

theorem replaceAll_tok_joinWith (k : String) (v : List Char) :
    ∀ fs : List (List Char), fs ≠ [] → (∀ f ∈ fs, lbrace ∉ f) →
      replaceAll (tok k) v (joinWith (tok k) fs) = joinWith v fs := by
  intro fs
  induction fs with
  | nil => intro h _; exact absurd rfl h
  | cons f fs' ih =>
    intro _ hmem
    cases fs' with
    | nil =>
      simp only [joinWith]
      exact replaceAll_no_lbrace k v f (hmem f (List.mem_cons_self f []))
    | cons g fs'' =>
      rw [joinWith_cons, joinWith_cons, List.append_assoc, List.append_assoc]
      rw [replaceAll_tok_boundary k v f _ (hmem f (List.mem_cons_self f _))]
      rw [ih (by simp) (fun x hx => hmem x (List.mem_cons_of_mem f hx))]

theorem replaceVariablesInString_unchanged (s : String) :
    ∀ r : List (String × String), (∀ kv ∈ r, containsSeq (tok kv.1) s.data = false) →
      replaceVariablesInString s r = s := by
  obtain ⟨l⟩ := s
  intro r h
  show (⟨List.foldl _ l r⟩ : String) = ⟨l⟩
  congr 1
  induction r with
  | nil => rfl
  | cons kv r' ih =>
    rw [List.foldl_cons,
      replaceAll_not_contains (tok kv.1) kv.2.data l (h kv (List.mem_cons_self kv r')),
      ih (fun x hx => h x (List.mem_cons_of_mem kv hx))]

mutual

theorem replaceValue_eq_mapLeaves (r : List (String × String)) :
    (j : Json) →
      replaceVariablesInValue r j = mapStringLeaves (fun s => replaceVariablesInString s r) j
  | .null => by simp [replaceVariablesInValue, mapStringLeaves]
  | .bool b => by simp [replaceVariablesInValue, mapStringLeaves]
  | .num n => by simp [replaceVariablesInValue, mapStringLeaves]
  | .str s => by simp [replaceVariablesInValue, mapStringLeaves]
  | .arr xs => by
    simp only [replaceVariablesInValue, mapStringLeaves]
    exact congrArg Json.arr (replaceList_eq_mapLeaves r xs)
  | .obj kvs => by
    simp only [replaceVariablesInValue, mapStringLeaves]
    exact congrArg Json.obj (replaceFields_eq_mapLeaves r kvs)
termination_by j => sizeOf j

theorem replaceFields_eq_mapLeaves (r : List (String × String)) :
    (kvs : List (String × Json)) →
      replaceVariablesInFields r kvs =
        mapStringLeavesFields (fun s => replaceVariablesInString s r) kvs
  | [] => by simp [replaceVariablesInFields, mapStringLeavesFields]
  | (k, v) :: rest => by
    simp only [replaceVariablesInFields, mapStringLeavesFields]
    rw [replaceValue_eq_mapLeaves r v, replaceFields_eq_mapLeaves r rest]
termination_by kvs => sizeOf kvs

theorem replaceList_eq_mapLeaves (r : List (String × String)) :
    (xs : List Json) →
      replaceVariablesInList r xs =
        mapStringLeavesList (fun s => replaceVariablesInString s r) xs
  | [] => by simp [replaceVariablesInList, mapStringLeavesList]
  | x :: xs => by
    simp only [replaceVariablesInList, mapStringLeavesList]
    rw [replaceValue_eq_mapLeaves r x, replaceList_eq_mapLeaves r xs]
termination_by xs => sizeOf xs

end

/-- C1.  For every template and every bindings map, substitution rewrites
the request URL, every header value, and exactly the string leaves of the
request body tree (recursing through maps and arrays, leaving non-string
scalars untouched) with the per-string replacement function; a string
built from placeholder-free fragments joined by N copies of the token
\x7b\x7bname\x7d\x7d has all N occurrences replaced by the binding value;
and a string containing no bound placeholder token is left unchanged, so
unbound placeholders stay literally in place.  Substitution is a total
function (it never fails). -/
theorem substitution_replaces_string_leaves :
    (∀ (t : Template) (r : List (String × String)),
      (t.replaceVariables r).request.url = replaceVariablesInString t.request.url r
      ∧ (t.replaceVariables r).request.headers
          = t.request.headers.map (fun kv => (kv.1, replaceVariablesInString kv.2 r))
      ∧ (t.replaceVariables r).request.body
          = some (mapStringLeavesFields (fun s => replaceVariablesInString s r)
              (t.request.body.getD [])))
    ∧ (∀ (k v : String) (fs : List (List Char)), fs ≠ [] → (∀ f ∈ fs, lbrace ∉ f) →
        replaceVariablesInString ⟨joinWith (tok k) fs⟩ [(k, v)] = ⟨joinWith v.data fs⟩)
    ∧ (∀ (r : List (String × String)) (s : String),
        (∀ kv ∈ r, containsSeq (tok kv.1) s.data = false) →
        replaceVariablesInString s r = s) := by
  refine ⟨fun t r => ⟨rfl, rfl, ?_⟩, fun k v fs hne hmem => ?_, fun r s h => ?_⟩
  · rw [Template.replaceVariables]
    simp only
    rw [replaceFields_eq_mapLeaves]
  · show (⟨replaceAll (tok k) v.data (joinWith (tok k) fs)⟩ : String) = _
    rw [replaceAll_tok_joinWith k v.data fs hne hmem]
  · exact replaceVariablesInString_unchanged s r h

/-- Witness for C1 at concrete inputs: a URL made of one placeholder, a
body string with two occurrences of the same placeholder, and an unbound
placeholder left in place. -/
theorem substitution_replaces_string_leaves_witness :
    ((Template.mk "p" "" ⟨"\x7b\x7bu\x7d\x7d", "POST", [], some []⟩ ⟨"", false, ""⟩ "" "" []).replaceVariables
        [("u", "X")]).request.url
      = replaceVariablesInString "\x7b\x7bu\x7d\x7d" [("u", "X")]
    ∧ (["a".data, "b".data] ≠ ([] : List (List Char)))
    ∧ replaceVariablesInString ⟨joinWith (tok "k") ["a".data, "b".data]⟩ [("k", "V")]
        = ⟨joinWith "V".data ["a".data, "b".data]⟩
    ∧ replaceVariablesInString "keep \x7b\x7bm\x7d\x7d" [("k", "V")] = "keep \x7b\x7bm\x7d\x7d" :=
  ⟨(substitution_replaces_string_leaves.1 _ [("u", "X")]).1,
   by decide,
   substitution_replaces_string_leaves.2.1 "k" "V" ["a".data, "b".data] (by decide) (by decide),
   substitution_replaces_string_leaves.2.2 [("k", "V")] "keep \x7b\x7bm\x7d\x7d" (by decide)⟩

/-- C9.  Substitution modifies only the request URL, the header values
and the request body: provider, title, description, api document,
instructions, the request method, the header names and the entire
response configuration survive ReplaceVariables unchanged. -/
theorem replace_variables_frame (t : Template) (r : List (String × String)) :
    (t.replaceVariables r).provider = t.provider
    ∧ (t.replaceVariables r).title = t.title
    ∧ (t.replaceVariables r).description = t.description
    ∧ (t.replaceVariables r).apiDocument = t.apiDocument
    ∧ (t.replaceVariables r).instructions = t.instructions
    ∧ (t.replaceVariables r).request.method = t.request.method
    ∧ (t.replaceVariables r).request.headers.map Prod.fst = t.request.headers.map Prod.fst
    ∧ (t.replaceVariables r).response = t.response
    ∧ (t.replaceVariables r).response.path = t.response.path
    ∧ (t.replaceVariables r).response.autoDetect = t.response.autoDetect
    ∧ (t.replaceVariables r).response.responseFieldName = t.response.responseFieldName := by
  refine ⟨rfl, rfl, rfl, rfl, rfl, rfl, ?_, rfl, rfl, rfl, rfl⟩
  show (t.request.headers.map _).map Prod.fst = _
  rw [List.map_map]
  rfl

/-- C5.  Validation fails exactly when provider, request.url or
request.body is missing (for the string fields, absent and empty coincide
after JSON parsing; the body is missing when the map is nil), and the
reported error names the first missing field in the fixed order provider,
request.url, request.body; a template with all three present passes. -/
theorem validate_checks_in_order (t : Template) :
    (t.validate = none ↔ t.provider ≠ "" ∧ t.request.url ≠ "" ∧ t.request.body ≠ none)
    ∧ (t.provider = "" → t.validate = some "provider is required in template")
    ∧ (t.provider ≠ "" → t.request.url = "" →
        t.validate = some "request.url is required in template")
    ∧ (t.provider ≠ "" → t.request.url ≠ "" → t.request.body = none →
        t.validate = some "request.body is required in template") := by
  unfold Template.validate
  by_cases hp : t.provider = "" <;> by_cases hu : t.request.url = "" <;>
    cases hb : t.request.body <;> simp [hp, hu, hb]

/-- Witness for C5: a template whose body is missing fails with the error
naming request.body although provider and request.url are present. -/
theorem validate_checks_in_order_witness :
    ("p" ≠ "") ∧ ("https://x/y" ≠ "")
    ∧ (Template.mk "p" "" ⟨"https://x/y", "POST", [], none⟩ ⟨"", false, ""⟩ "" "" []).validate
        = some "request.body is required in template" :=
  ⟨by decide, by decide,
   (validate_checks_in_order _).2.2.2 (by decide) (by decide) rfl⟩

/-- C2.  When path navigation reaches the final node, a string node is
returned verbatim and every other node (with number, boolean and null the
reachable scalars) is rendered with the default fmt %v rendering rather
than reported as an error. -/
theorem final_node_string_or_rendered (resp : JObj) (path : String) (final : Json)
    (hpath : path ≠ "")
    (hnav : navParts resp (.obj resp) [] (splitOnChar dotChar path.data) = .ok final) :
    extractResponseContentByPath (some resp) path = .ok (finalToString final)
    ∧ (∀ s, final = .str s → extractResponseContentByPath (some resp) path = .ok s)
    ∧ (final.isScalarNonString = true →
        extractResponseContentByPath (some resp) path = .ok (goSprintV final)) := by
  have hx : extractResponseContentByPath (some resp) path = .ok (finalToString final) := by
    unfold extractResponseContentByPath
    rw [if_neg hpath]
    simp only [hnav]
  refine ⟨hx, fun s hs => ?_, fun hscalar => ?_⟩
  · rw [hs] at hx
    exact hx
  · cases final <;> simp [Json.isScalarNonString] at hscalar <;>
      simpa [finalToString, goSprintV] using hx

/-- Witness for C2: navigating to a numeric leaf returns its decimal
rendering. -/
theorem final_node_string_or_rendered_witness :
    (("answer" : String) ≠ "")
    ∧ navParts [("answer", .num 42)] (.obj [("answer", .num 42)]) []
        (splitOnChar dotChar "answer".data) = .ok (.num 42)
    ∧ extractResponseContentByPath (some [("answer", .num 42)]) "answer" = .ok "42" :=
  ⟨by decide, rfl, by
    have h := final_node_string_or_rendered [("answer", .num 42)] "answer" (.num 42)
      (by decide) rfl
    exact h.1⟩

/-- C3.  When auto-detection is enabled and fails (whatever the error:
unparseable body or no recognised shape), the extractor returns exactly
the result of path navigation on the configured path, so the caller
observes path navigation's success value or detailed error, never an
auto-detection error. -/
theorem autodetect_failure_falls_back (parsed : Option JObj) (rc : ResponseConfig)
    (e : AutoDetectError)
    (hauto : rc.autoDetect = true)
    (hfail : autoDetectResponseContent parsed rc.responseFieldName = .error e) :
    extractContent parsed rc = extractResponseContentByPath parsed rc.path := by
  unfold extractContent
  rw [hauto]
  simp only [if_true, hfail]

/-- Witness for C3: a body with no recognised shape falls back to the
configured path and the caller sees that field's value. -/
theorem autodetect_failure_falls_back_witness :
    autoDetectResponseContent (some [("foo", .str "bar")]) "" = .error .noFormat
    ∧ extractContent (some [("foo", .str "bar")]) ⟨"foo", true, ""⟩
        = extractResponseContentByPath (some [("foo", .str "bar")]) "foo"
    ∧ extractResponseContentByPath (some [("foo", .str "bar")]) "foo" = .ok "bar" :=
  ⟨rfl,
   autodetect_failure_falls_back (some [("foo", .str "bar")]) ⟨"foo", true, ""⟩ .noFormat rfl rfl,
   rfl⟩

/-- C10.  When the response-field hint is set and present but its value
is not a string, auto-detection neither returns it nor aborts: the
general ordered shape detection still runs, and only its failure makes
auto-detection fail. -/
theorem hint_nonstring_falls_through (resp : JObj) (fieldName : String) (v : Json)
    (hne : fieldName ≠ "") (hlook : resp.lookup fieldName = some v) (hstr : v.isStr = false) :
    autoDetectResponseContent (some resp) fieldName =
      (match detectResponseFormat resp with
       | some content => .ok content
       | none => .error .noFormat) := by
  unfold autoDetectResponseContent
  cases v <;> simp [hlook, hne, Json.isStr] at hstr ⊢

/-- Witness for C10: a numeric hint field is skipped and the content
heuristic still fires. -/
theorem hint_nonstring_falls_through_witness :
    (("x" : String) ≠ "")
    ∧ (([("x", .num 1), ("content", .str "c")] : JObj).lookup "x" = some (.num 1))
    ∧ Json.isStr (.num 1) = false
    ∧ autoDetectResponseContent (some [("x", .num 1), ("content", .str "c")]) "x"
        = .ok "c" :=
  ⟨by decide, rfl, rfl, by
    have h := hint_nonstring_falls_through [("x", .num 1), ("content", .str "c")] "x"
      (.num 1) (by decide) rfl rfl
    simpa [detectResponseFormat, tryResponseField, tryChoices, tryContentString,
      tryCompletion, tryGenerations, tryContentBlocks] using h⟩

theorem tryResponseField_eq_spec (r : JObj) : tryResponseField r = specProbeResponse r := rfl

theorem tryContentString_eq_spec (r : JObj) : tryContentString r = specProbeContent r := rfl

theorem tryCompletion_eq_spec (r : JObj) : tryCompletion r = specProbeCompletion r := rfl

theorem tryGenerations_eq_spec (r : JObj) : tryGenerations r = specProbeGenerations r := rfl

theorem tryContentBlocks_eq_spec (r : JObj) : tryContentBlocks r = specProbeContentBlocks r :=
  rfl

theorem tryChoices_eq_spec (r : JObj) :
    tryChoices r =
      (match specProbeChoicesMessage r with
       | some s => some s
       | none => specProbeChoicesText r) := by
  unfold tryChoices specProbeChoicesMessage specProbeChoicesText
  cases hr : r.lookup "choices" with
  | none => rfl
  | some j =>
    cases j with
    | arr xs =>
      cases xs with
      | nil => rfl
      | cons c rest =>
        cases c with
        | obj cm =>
          cases hm : cm.lookup "message" with
          | none => simp only [hm]
          | some m =>
            cases m with
            | obj mm =>
              cases hc : mm.lookup "content" with
              | none => simp only [hm, hc]
              | some cv => cases cv <;> simp only [hm, hc]
            | null => simp only [hm]
            | bool b => simp only [hm]
            | num n => simp only [hm]
            | str s => simp only [hm]
            | arr ys => simp only [hm]
        | null => rfl
        | bool b => rfl
        | num n => rfl
        | str s => rfl
        | arr ys => rfl
    | null => rfl
    | bool b => rfl
    | num n => rfl
    | str s => rfl
    | obj kvs => rfl

/-- C4.  The detection heuristics run in the fixed priority order
response, choices[0].message.content, choices[0].text, content,
completion, generations[0].text, content[0].text, returning on the first
match (the source's duplicated content check adds nothing); in
particular, on a body carrying both a top-level string response field and
a choices[0].message.content string, detection returns the response
field's value. -/
theorem autodetect_probe_order :
    (∀ r : JObj, detectResponseFormat r = firstMatch r specProbeOrder)
    ∧ (∀ (r : JObj) (s₁ s₂ : String),
        r.lookup "response" = some (.str s₁) →
        specProbeChoicesMessage r = some s₂ →
        detectResponseFormat r = some s₁) := by
  constructor
  · intro r
    unfold detectResponseFormat specProbeOrder
    simp only [firstMatch, tryResponseField_eq_spec, tryContentString_eq_spec,
      tryCompletion_eq_spec, tryGenerations_eq_spec, tryContentBlocks_eq_spec,
      tryChoices_eq_spec]
    cases specProbeResponse r with
    | some s => rfl
    | none =>
      cases specProbeChoicesMessage r with
      | some s => rfl
      | none =>
        cases specProbeChoicesText r with
        | some s => rfl
        | none =>
          cases hc : specProbeContent r with
          | some s => simp [hc]
          | none =>
            simp only [hc]
            cases specProbeCompletion r with
            | some s => rfl
            | none =>
              cases specProbeGenerations r with
              | some s => simp [hc]
              | none =>
                simp only [hc]
                cases specProbeContentBlocks r <;> rfl
  · intro r s₁ s₂ hresp _
    unfold detectResponseFormat tryResponseField
    rw [hresp]

/-- Witness for C4: a body with both response and
choices[0].message.content yields the response field. -/
theorem autodetect_probe_order_witness :
    (([("response", .str "r"),
       ("choices", .arr [.obj [("message", .obj [("content", .str "c")])]])] : JObj).lookup
        "response" = some (.str "r"))
    ∧ specProbeChoicesMessage
        [("response", .str "r"),
         ("choices", .arr [.obj [("message", .obj [("content", .str "c")])]])] = some "c"
    ∧ detectResponseFormat
        [("response", .str "r"),
         ("choices", .arr [.obj [("message", .obj [("content", .str "c")])]])] = some "r" :=
  ⟨rfl, rfl,
   autodetect_probe_order.2
     [("response", .str "r"),
      ("choices", .arr [.obj [("message", .obj [("content", .str "c")])]])] "r" "c" rfl rfl⟩

theorem liftExtract_ne_apiError (er : ExtractResult) (st : Nat) (raw : String) :
    liftExtract er ≠ .apiError st raw := by
  cases er <;> simp [liftExtract]

/-- C6 counterexample.  A status-200 response whose body is not JSON
makes the call fail (with an extraction error, not carrying the status),
so the call failing is not equivalent to the status differing from 200. -/
theorem call_failure_iff_non200_cex :
    callHandleResponse 200 ⟨"not json", none⟩ ⟨"choices[0].message.content", false, ""⟩
      = .extractError .parseError
    ∧ (callHandleResponse 200 ⟨"not json", none⟩
        ⟨"choices[0].message.content", false, ""⟩).isOk = false :=
  ⟨rfl, rfl⟩

/-- C6 amended.  The call fails with the API error carrying the status
code and the raw unparsed body exactly when the status is not 200, and on
a status-200 response the result is exactly the extraction result
(extraction is attempted only there, and may itself fail). -/
theorem call_api_error_iff_non200 (status : Nat) (body : HTTPBody) (rc : ResponseConfig) :
    (callHandleResponse status body rc = .apiError status body.raw ↔ status ≠ 200)
    ∧ (status = 200 →
        callHandleResponse status body rc = liftExtract (extractContent body.parsed rc)) := by
  refine ⟨⟨fun h hs => ?_, fun h => ?_⟩, fun h => ?_⟩
  · rw [callHandleResponse, if_neg (fun hn => hn hs)] at h
    exact liftExtract_ne_apiError _ _ _ h
  · rw [callHandleResponse, if_pos h]
  · rw [callHandleResponse, if_neg (fun hn => hn h)]

/-- Witness for the amended C6: a 404 fails with the API error carrying
status and raw body, and a 200 dispatches to extraction. -/
theorem call_api_error_iff_non200_witness :
    ((404 : Nat) ≠ 200)
    ∧ callHandleResponse 404 ⟨"oops", none⟩ ⟨"p", false, ""⟩ = .apiError 404 "oops"
    ∧ callHandleResponse 200 ⟨"irrelevant", none⟩ ⟨"p", false, ""⟩
        = liftExtract (extractContent none ⟨"p", false, ""⟩) :=
  ⟨by decide,
   (call_api_error_iff_non200 404 ⟨"oops", none⟩ ⟨"p", false, ""⟩).1.mpr (by decide),
   (call_api_error_iff_non200 200 ⟨"irrelevant", none⟩ ⟨"p", false, ""⟩).2 rfl⟩

/-! ## Lemmas about the --var specification splitting -/

theorem splitFirstColon_cons (c : Char) (l : List Char) :
    splitFirstColon (c :: l) =
      (if c = colonChar then some ([], l)
       else (splitFirstColon l).map (fun p => (c :: p.1, p.2))) := rfl

theorem splitFirstColon_append (rest : List Char) :
    ∀ a : List Char, colonChar ∉ a →
      splitFirstColon (a ++ colonChar :: rest) = some (a, rest) := by
  intro a
  induction a with
  | nil => simp [splitFirstColon_cons]
  | cons c cs ih =>
    intro h
    have hc : c ≠ colonChar := fun hc => h (hc ▸ List.mem_cons_self c cs)
    rw [List.cons_append, splitFirstColon_cons, if_neg hc,
      ih (fun hm => h (List.mem_cons_of_mem c hm))]
    rfl

theorem goSplitNColon_step (n : Nat) (s : List Char) :
    goSplitNColon (n + 2) s =
      (match splitFirstColon s with
       | none => [s]
       | some (pre, post) => pre :: goSplitNColon (n + 1) post) := rfl

theorem goSplitNColon_length_le : ∀ (n : Nat) (s : List Char),
    (goSplitNColon n s).length ≤ n
  | 0, s => by simp [goSplitNColon]
  | 1, s => by simp [goSplitNColon]
  | n + 2, s => by
    rw [goSplitNColon_step]
    cases h : splitFirstColon s with
    | none => simp
    | some p =>
      obtain ⟨pre, post⟩ := p
      have ih := goSplitNColon_length_le (n + 1) post
      simp only [List.length_cons]
      omega

/-- C7 counterexample.  The specification string ":v" splits into exactly
two parts, yet parsing rejects it (empty name) instead of yielding the
text kind with "v" as value. -/
theorem varspec_two_parts_cex :
    (splitVarSpec ":v").length = 2
    ∧ parseVarSpec ":v" = .error "variable name cannot be empty in: :v" :=
  ⟨rfl, rfl⟩

/-- C7 amended.  Splitting produces at most 3 parts; fewer than 2 parts
is rejected as malformed; exactly 2 parts with a non-empty first part
yields kind text with the second part as value; exactly 3 parts with a
non-empty first part yields the second part as explicit kind and the
third as value; a specification whose first two separators delimit
colon-free parts splits into those parts with the remainder (which may
itself contain colons) as the third; and any specification splitting
into 2 or more parts whose first part is empty is rejected for its empty
name. -/
theorem varspec_split_rule (s : String) :
    (splitVarSpec s).length ≤ 3
    ∧ ((splitVarSpec s).length < 2 →
        parseVarSpec s
          = .error ("invalid var format, expected name:value or name:type:value: " ++ s))
    ∧ (∀ name value : String, splitVarSpec s = [name, value] → name ≠ "" →
        parseVarSpec s = .ok (name, "text", value))
    ∧ (∀ name kind value : String, splitVarSpec s = [name, kind, value] → name ≠ "" →
        parseVarSpec s = .ok (name, kind, value))
    ∧ (∀ a b c : List Char, colonChar ∉ a → colonChar ∉ b →
        s.data = a ++ colonChar :: (b ++ colonChar :: c) →
        splitVarSpec s = [⟨a⟩, ⟨b⟩, ⟨c⟩])
    ∧ (∀ rest : List String, splitVarSpec s = "" :: rest → rest ≠ [] →
        parseVarSpec s = .error ("variable name cannot be empty in: " ++ s)) := by
  refine ⟨?_, fun h => ?_, fun name value hsplit hname => ?_,
    fun name kind value hsplit hname => ?_, fun a b c ha hb hdata => ?_,
    fun rest hsplit hrest => ?_⟩
  · show ((goSplitNColon 3 s.data).map _).length ≤ 3
    rw [List.length_map]
    exact goSplitNColon_length_le 3 s.data
  · unfold parseVarSpec
    rw [if_pos h]
  · unfold parseVarSpec
    simp [hsplit, hname]
  · unfold parseVarSpec
    simp [hsplit, hname]
  · show (goSplitNColon 3 s.data).map _ = _
    rw [hdata]
    have e1 : goSplitNColon 3 (a ++ colonChar :: (b ++ colonChar :: c))
        = a :: goSplitNColon 2 (b ++ colonChar :: c) := by
      rw [show (3 : Nat) = 1 + 2 from rfl, goSplitNColon_step, splitFirstColon_append _ a ha]
    have e2 : goSplitNColon 2 (b ++ colonChar :: c) = b :: goSplitNColon 1 c := by
      rw [show (2 : Nat) = 0 + 2 from rfl, goSplitNColon_step, splitFirstColon_append _ b hb]
    rw [e1, e2]
    rfl
  · cases rest with
    | nil => exact absurd rfl hrest
    | cons r rs =>
      unfold parseVarSpec
      simp [hsplit]

/-- Witness for the amended C7: the three-part specification n:file:-
parses to name n, explicit kind file and value -, while the three-part
specification :text:v with an empty first part is rejected for its empty
name. -/
theorem varspec_split_rule_witness :
    splitVarSpec "n:file:-" = ["n", "file", "-"]
    ∧ (("n" : String) ≠ "")
    ∧ parseVarSpec "n:file:-" = .ok ("n", "file", "-")
    ∧ splitVarSpec ":text:v" = ["", "text", "v"]
    ∧ (["text", "v"] ≠ ([] : List String))
    ∧ parseVarSpec ":text:v" = .error "variable name cannot be empty in: :text:v" :=
  ⟨rfl, by decide,
   (varspec_split_rule "n:file:-").2.2.2.1 "n" "file" "-" rfl (by decide),
   rfl, by decide,
   (varspec_split_rule ":text:v").2.2.2.2.2 ["text", "v"] rfl (by decide)⟩

/-! ## Lemmas about path-segment scanning, for the navigation safety
analysis -/

theorem splitOnChar_not_mem (c : Char) :
    ∀ l : List Char, c ∉ l → splitOnChar c l = [l] := by
  intro l
  induction l with
  | nil => intro _; rfl
  | cons x xs ih =>
    intro h
    have hx : x ≠ c := fun hx => h (hx ▸ List.mem_cons_self x xs)
    rw [splitOnChar, if_neg hx, ih (fun hm => h (List.mem_cons_of_mem x hm))]

theorem firstIdxOf_cons_self (c : Char) (l : List Char) :
    firstIdxOf c (c :: l) = some 0 := by
  rw [firstIdxOf, if_pos rfl]

theorem firstIdxOf_cons_ne {x c : Char} (l : List Char) (h : x ≠ c) :
    firstIdxOf c (x :: l) = (firstIdxOf c l).map (· + 1) := by
  rw [firstIdxOf, if_neg h]

theorem firstIdxOf_append_not_mem (c : Char) (l₂ : List Char) :
    ∀ l₁ : List Char, c ∉ l₁ →
      firstIdxOf c (l₁ ++ l₂) = (firstIdxOf c l₂).map (· + l₁.length) := by
  intro l₁
  induction l₁ with
  | nil =>
    intro _
    simp only [List.nil_append, List.length_nil]
    cases firstIdxOf c l₂ <;> simp
  | cons x xs ih =>
    intro h
    have hx : x ≠ c := fun hx => h (hx ▸ List.mem_cons_self x xs)
    rw [List.cons_append, firstIdxOf_cons_ne _ hx, ih (fun hm => h (List.mem_cons_of_mem x hm))]
    cases firstIdxOf c l₂ <;> simp
    omega

theorem firstIdxOf_nil (c : Char) : firstIdxOf c [] = none := rfl

theorem firstIdxOf_lbrack_part (name idxStr : List Char) (h : lbrack ∉ name) :
    firstIdxOf lbrack (name ++ lbrack :: (idxStr ++ [rbrack])) = some name.length := by
  rw [firstIdxOf_append_not_mem lbrack _ name h, firstIdxOf_cons_self]
  simp

theorem firstIdxOf_rbrack_part (name idxStr : List Char)
    (hn : rbrack ∉ name) (hi : rbrack ∉ idxStr) :
    firstIdxOf rbrack (name ++ lbrack :: (idxStr ++ [rbrack]))
      = some (name.length + idxStr.length + 1) := by
  have hlb : lbrack ≠ rbrack := by decide
  rw [firstIdxOf_append_not_mem rbrack _ name hn, firstIdxOf_cons_ne _ hlb,
    firstIdxOf_append_not_mem rbrack _ idxStr hi, firstIdxOf_cons_self]
  simp
  omega

theorem goSlice_index_substring (name idxStr : List Char) :
    goSlice (name ++ lbrack :: (idxStr ++ [rbrack])) (name.length + 1)
      (name.length + idxStr.length + 1) = some idxStr := by
  have hre : name ++ lbrack :: (idxStr ++ [rbrack])
      = ((name ++ [lbrack]) ++ idxStr) ++ [rbrack] := by simp
  have hlen1 : ((name ++ [lbrack]) ++ idxStr).length = name.length + idxStr.length + 1 := by
    simp only [List.length_append, List.length_cons, List.length_nil]
    omega
  have hlen2 : (name ++ [lbrack]).length = name.length + 1 := by
    simp only [List.length_append, List.length_cons, List.length_nil]
  have hcond : name.length + 1 ≤ name.length + idxStr.length + 1
      ∧ name.length + idxStr.length + 1
          ≤ (name ++ lbrack :: (idxStr ++ [rbrack])).length := by
    refine ⟨by omega, ?_⟩
    simp only [List.length_append, List.length_cons, List.length_nil]
    omega
  rw [goSlice, if_pos hcond, hre, List.take_left' hlen1, List.drop_left' hlen2]

theorem goSlice_inverted (part : List Char) (lo hi : Nat) (h : hi < lo) :
    goSlice part lo hi = none := by
  rw [goSlice, if_neg (fun hc => absurd hc.1 (by omega))]

theorem take_name_part (name rest : List Char) :
    (name ++ rest).take name.length = name :=
  List.take_left' rfl

theorem navParts_negative_index (resp : JObj) (current : Json) (done : List (List Char))
    (name idxStr : List Char) (i : Int) (arr : List Json) (rest : List (List Char))
    (hne : name ≠ []) (hn1 : lbrack ∉ name) (hn2 : rbrack ∉ name)
    (hi1 : rbrack ∉ idxStr)
    (hatoi : goAtoi idxStr = some i) (hneg : i < 0)
    (hnav : navigateToField current ⟨name⟩ = .arr arr) :
    navParts resp current done ((name ++ lbrack :: (idxStr ++ [rbrack])) :: rest) = .panic := by
  have hb1 : ¬((arr.length : Int) ≤ i) := by omega
  simp only [navParts, firstIdxOf_lbrack_part name idxStr hn1,
    firstIdxOf_rbrack_part name idxStr hn2 hi1, take_name_part,
    goSlice_index_substring, hatoi, hne, hnav, Json.isNull, if_false,
    Bool.false_eq_true, hb1, hneg, if_true]

theorem navParts_inverted_brackets (resp : JObj) (current : Json) (done : List (List Char))
    (part : List Char) (i1 i2 : Nat) (rest : List (List Char))
    (h1 : firstIdxOf lbrack part = some i1) (h2 : firstIdxOf rbrack part = some i2)
    (hlt : i2 < i1) :
    navParts resp current done (part :: rest) = .panic := by
  simp only [navParts, h1, h2, goSlice_inverted part (i1 + 1) i2 (by omega)]

/-- C8.  The array-bounds guard only rejects indices at or past the array
length: a segment name[i] whose index parses negative passes the guard and
reaches the array access, a Go runtime panic, not an IndexOutOfBounds
error; and a segment whose first right bracket precedes its first left
bracket reaches the index-substring slice expression with inverted
bounds, also a panic.  Path navigation is therefore not total over path
strings. -/
theorem path_navigation_unguarded :
    (∀ (resp : JObj) (name idxStr : List Char) (i : Int) (arr : List Json),
      name ≠ [] →
      lbrack ∉ name → rbrack ∉ name → dotChar ∉ name →
      rbrack ∉ idxStr → dotChar ∉ idxStr →
      goAtoi idxStr = some i → i < 0 →
      List.lookup (⟨name⟩ : String) resp = some (.arr arr) →
      extractResponseContentByPath (some resp) ⟨name ++ lbrack :: (idxStr ++ [rbrack])⟩
        = .panic)
    ∧ (∀ (resp : JObj) (part : List Char) (i1 i2 : Nat),
      dotChar ∉ part →
      firstIdxOf lbrack part = some i1 →
      firstIdxOf rbrack part = some i2 →
      i2 < i1 →
      extractResponseContentByPath (some resp) ⟨part⟩ = .panic) := by
  constructor
  · intro resp name idxStr i arr hne hn1 hn2 hn3 hir hid hatoi hneg hlook
    have hdot : dotChar ∉ name ++ lbrack :: (idxStr ++ [rbrack]) := by
      intro hm
      rcases List.mem_append.mp hm with h | h
      · exact hn3 h
      · rcases List.mem_cons.mp h with h | h
        · exact absurd h (by decide)
        · rcases List.mem_append.mp h with h | h
          · exact hid h
          · rcases List.mem_cons.mp h with h | h
            · exact absurd h (by decide)
            · exact absurd h (List.not_mem_nil _)
    have hpne : name ++ lbrack :: (idxStr ++ [rbrack]) ≠ [] := by simp
    have hstrne : (⟨name ++ lbrack :: (idxStr ++ [rbrack])⟩ : String) ≠ "" := by
      intro he
      exact hpne (congrArg String.data he)
    unfold extractResponseContentByPath
    rw [if_neg hstrne]
    show (match navParts resp (.obj resp) []
        (splitOnChar dotChar (name ++ lbrack :: (idxStr ++ [rbrack]))) with
      | NavOutcome.ok final => ExtractResult.ok (finalToString final)
      | NavOutcome.err e => ExtractResult.err e
      | NavOutcome.panic => ExtractResult.panic) = ExtractResult.panic
    rw [splitOnChar_not_mem _ _ hdot,
      navParts_negative_index resp (.obj resp) [] name idxStr i arr [] hne hn1 hn2 hir
        hatoi hneg (by simp [navigateToField, hlook])]
  · intro resp part i1 i2 hdot h1 h2 hlt
    have hpne : part ≠ [] := by
      intro he
      rw [he] at h1
      simp [firstIdxOf] at h1
    have hstrne : (⟨part⟩ : String) ≠ "" := by
      intro he
      exact hpne (congrArg String.data he)
    unfold extractResponseContentByPath
    rw [if_neg hstrne]
    show (match navParts resp (.obj resp) [] (splitOnChar dotChar part) with
      | NavOutcome.ok final => ExtractResult.ok (finalToString final)
      | NavOutcome.err e => ExtractResult.err e
      | NavOutcome.panic => ExtractResult.panic) = ExtractResult.panic
    rw [splitOnChar_not_mem _ _ hdot,
      navParts_inverted_brackets resp (.obj resp) [] part i1 i2 [] h1 h2 hlt]

/-- Witness for C8: choices[-1] on a one-element array panics instead of
reporting IndexOutOfBounds, and the segment a]b[0 panics at the slice. -/
theorem path_navigation_unguarded_witness :
    goAtoi ("-1".data) = some (-1)
    ∧ List.lookup ("choices" : String) ([("choices", .arr [.null])] : JObj)
        = some (.arr [.null])
    ∧ extractResponseContentByPath (some [("choices", .arr [.null])])
        ⟨"choices".data ++ lbrack :: ("-1".data ++ [rbrack])⟩ = .panic
    ∧ extractResponseContentByPath (some [("choices", .arr [.null])]) ⟨"a]b[0".data⟩
        = .panic :=
  ⟨rfl, rfl,
   path_navigation_unguarded.1 [("choices", .arr [.null])] "choices".data "-1".data (-1)
     [.null] (by decide) (by decide) (by decide) (by decide) (by decide) (by decide)
     rfl (by decide) rfl,
   path_navigation_unguarded.2 [("choices", .arr [.null])] "a]b[0".data 3 1 (by decide)
     rfl rfl (by decide)⟩

end LlmCaller
